import Mathlib

/-!
Verification of the SIGAIA Resource Reservation subsystem.

The repository ships the React frontend (`frontend/src/api/reservations.ts`,
`frontend/src/api/client.ts`, the resources / my-reservations pages) while the
FastAPI backend implementing the reservation engine is not part of the source
tree; the engine is therefore modelled from the specification (sections 3-8),
and the frontend functions are embedded directly from their TypeScript source.
-/

/-- Operational status of a resource, from `reservations.ts`
(`'DISPONIBLE' | 'MANTENIMIENTO' | 'FUERA_SERVICIO'`); the spec names these
AVAILABLE / MAINTENANCE / OUT_OF_SERVICE. -/
inductive ResourceStatus
  | DISPONIBLE
  | MANTENIMIENTO
  | FUERA_SERVICIO
deriving DecidableEq, Repr

/-- Reservation lifecycle status, from `reservations.ts`. -/
inductive ReservationStatus
  | PENDING
  | APPROVED
  | REJECTED
  | CANCELLED
  | COMPLETED
  | NO_SHOW
deriving DecidableEq, Repr

/-- Resource category, from `reservations.ts`. -/
inductive ResourceType
  | SALA_CONFERENCIAS
  | LABORATORIO
  | AUDITORIO
  | SALA_ESTUDIO
  | EQUIPO
  | VEHICULO
  | OTRO
deriving DecidableEq, Repr

namespace Frontend

/-- `ResourceListItem` interface of `reservations.ts`. Optional TS fields
(`location?`, `capacity?`, `imageUrl?`) become `Option`. -/
structure ResourceListItem where
  id : Nat
  name : String
  code : String
  resourceType : ResourceType
  location : Option String
  capacity : Option Nat
  status : ResourceStatus
  isActive : Bool
  imageUrl : Option String
deriving DecidableEq, Repr

/-- `Reservation` interface of `reservations.ts`. -/
structure Reservation where
  id : Nat
  resourceId : Nat
  userId : Nat
  startTime : String
  endTime : String
  title : String
  description : Option String
  attendeesCount : Option Nat
  status : ReservationStatus
  approvedById : Option Nat
  approvedAt : Option String
  rejectionReason : Option String
  checkedInAt : Option String
  checkedOutAt : Option String
  isRecurring : Bool
  createdAt : String
  updatedAt : String
  resource : Option ResourceListItem
deriving DecidableEq, Repr

/-- JavaScript truthiness of an optional string: `undefined` and `""` are
falsy, every other string is truthy. Used where the TS code tests fields such
as `reservation.checkedInAt` directly. -/
def truthy : Option String → Bool
  | none => false
  | some s => decide (s ≠ "")

/-- `canCancel` from the My Reservations page:
`['PENDING', 'APPROVED'].includes(reservation.status)`. -/
def canCancel (r : Reservation) : Bool :=
  decide (r.status = .PENDING) || decide (r.status = .APPROVED)

/-- `canCheckIn` from the My Reservations page:
`reservation.status === 'APPROVED' && !reservation.checkedInAt`. -/
def canCheckIn (r : Reservation) : Bool :=
  decide (r.status = .APPROVED) && !truthy r.checkedInAt

/-- `canCheckOut` from the My Reservations page:
`reservation.status === 'APPROVED' && reservation.checkedInAt && !reservation.checkedOutAt`. -/
def canCheckOut (r : Reservation) : Bool :=
  decide (r.status = .APPROVED) && truthy r.checkedInAt && !truthy r.checkedOutAt

/-- The `disabled` prop of the "Reservar" button in `ResourceCard`
(Resources page): `resource.status !== 'DISPONIBLE'`. -/
def reserveButtonDisabled (resource : ResourceListItem) : Bool :=
  decide (resource.status ≠ .DISPONIBLE)

/-- Snake_case API payload for a resource list item, the record read by
`transformResourceListItem`. -/
structure ResourceListItemPayload where
  id : Nat
  name : String
  code : String
  resource_type : ResourceType
  location : Option String
  capacity : Option Nat
  status : ResourceStatus
  is_active : Bool
  image_url : Option String
deriving DecidableEq, Repr

/-- Snake_case API payload for a reservation, the record read by
`transformReservation`; the optional nested `resource` object is `Option`
(a JS object is always truthy, so `data.resource ? ... : undefined`
discriminates exactly on presence). -/
structure ReservationPayload where
  id : Nat
  resource_id : Nat
  user_id : Nat
  start_time : String
  end_time : String
  title : String
  description : Option String
  attendees_count : Option Nat
  status : ReservationStatus
  approved_by_id : Option Nat
  approved_at : Option String
  rejection_reason : Option String
  checked_in_at : Option String
  checked_out_at : Option String
  is_recurring : Bool
  created_at : String
  updated_at : String
  resource : Option ResourceListItemPayload
deriving DecidableEq, Repr

/-- `transformResourceListItem` from `reservations.ts`. -/
def transformResourceListItem (data : ResourceListItemPayload) : ResourceListItem :=
  { id := data.id
    name := data.name
    code := data.code
    resourceType := data.resource_type
    location := data.location
    capacity := data.capacity
    status := data.status
    isActive := data.is_active
    imageUrl := data.image_url }

/-- `transformReservation` from `reservations.ts`. -/
def transformReservation (data : ReservationPayload) : Reservation :=
  { id := data.id
    resourceId := data.resource_id
    userId := data.user_id
    startTime := data.start_time
    endTime := data.end_time
    title := data.title
    description := data.description
    attendeesCount := data.attendees_count
    status := data.status
    approvedById := data.approved_by_id
    approvedAt := data.approved_at
    rejectionReason := data.rejection_reason
    checkedInAt := data.checked_in_at
    checkedOutAt := data.checked_out_at
    isRecurring := data.is_recurring
    createdAt := data.created_at
    updatedAt := data.updated_at
    resource := data.resource.map transformResourceListItem }

/-- The relevant shape of an Axios error response for `handleApiError`:
`error.response?.data?.detail` (optional string) and `error.response?.status`
(a number; `0` is falsy in JS). -/
structure AxiosResponsePart where
  dataDetail : Option String
  status : Nat
deriving DecidableEq, Repr

/-- The inputs `handleApiError` discriminates on: an Axios error (optional
response part plus `message`) or any non-Axios value. -/
inductive ApiCallError
  | axiosErr (response : Option AxiosResponsePart) (message : String)
  | otherErr
deriving DecidableEq, Repr

/-- `ApiError` interface of `client.ts`. -/
structure ApiError where
  detail : String
  status : Nat
deriving DecidableEq, Repr

/-- JS `a || b` on an optional string `a` and string `b`: `undefined` and
`""` are falsy. -/
def jsOrStr (a : Option String) (b : String) : String :=
  match a with
  | none => b
  | some s => if s = "" then b else s

/-- `handleApiError` from `client.ts`: Axios errors yield
`detail = error.response?.data?.detail || error.message` and
`status = error.response?.status || 500`; anything else yields the fixed
fallback record. -/
def handleApiError : ApiCallError → ApiError
  | .axiosErr response message =>
    { detail := jsOrStr (response.bind (fun resp => resp.dataDetail)) message
      status :=
        match response with
        | none => 500
        | some resp => if resp.status = 0 then 500 else resp.status }
  | .otherErr =>
    { detail := "An unexpected error occurred"
      status := 500 }

end Frontend

namespace Engine

/-- Time instants, abstractly in minutes. -/
abbrev Time := Nat

/-- Modelled from the spec: the error taxonomy of section 7 (the backend
implementation is not in the source tree). `ResourceUnavailable` is the
rejection mandated by the section 3 Resource invariant for a non-AVAILABLE
resource. -/
inductive EngineError
  | ValidationError
  | ResourceUnavailable
  | ConflictError (collidingId : Nat)
  | RuleViolationError
  | SanctionBlockedError
  | InvalidTransition
  | NotFound
deriving DecidableEq, Repr

/-- Modelled from the spec: the Resource fields the reservation engine
consults (section 3); the resource carries zero active rules, the case in
which section 4.3 accepts any request passing the Conflict Detector and the
duration bounds. -/
structure Resource where
  id : Nat
  status : ResourceStatus
  requiresApproval : Bool
  minReservationMinutes : Nat
  maxReservationMinutes : Nat
deriving DecidableEq, Repr

/-- Modelled from the spec: the persisted Reservation row (section 3),
restricted to the fields the lifecycle and the Conflict Detector read. -/
structure Reservation where
  id : Nat
  resourceId : Nat
  userId : Nat
  startTime : Time
  endTime : Time
  status : ReservationStatus
  approvedById : Option Nat
  approvedAt : Option Time
  rejectionReason : Option String
  checkedInAt : Option Time
  checkedOutAt : Option Time
deriving DecidableEq, Repr

/-- A "live" reservation occupies the resource's schedule: status PENDING or
APPROVED (spec glossary). -/
def isLive : ReservationStatus → Bool
  | .PENDING => true
  | .APPROVED => true
  | _ => false

/-- Modelled from the spec (section 4.2): two half-open intervals `[s1,e1)`
and `[s2,e2)` overlap iff `s1 < e2 AND s2 < e1`. -/
def overlaps (s1 e1 s2 e2 : Time) : Bool :=
  decide (s1 < e2) && decide (s2 < e1)

/-- Modelled from the spec: the authoritative store state — resource catalog,
reservation rows, and the next fresh reservation id. -/
structure State where
  resources : List Resource
  reservations : List Reservation
  nextId : Nat
deriving DecidableEq, Repr

/-- Modelled from the spec (section 4.2): whether existing reservation `r`
collides with a proposed `[s,e)` interval on resource `resourceId` — same
resource, live status, not the excluded reservation, overlapping interval. -/
def conflictsWith (resourceId : Nat) (s e : Time) (excludeId : Option Nat)
    (r : Reservation) : Bool :=
  decide (r.resourceId = resourceId) && isLive r.status &&
    decide (excludeId ≠ some r.id) && overlaps s e r.startTime r.endTime

/-- Modelled from the spec (section 4.2): the Conflict Detector's list of
colliding reservations for a proposed interval. -/
def findConflicts (st : State) (resourceId : Nat) (s e : Time)
    (excludeId : Option Nat) : List Reservation :=
  st.reservations.filter (conflictsWith resourceId s e excludeId)

/-- A reservation creation request. -/
structure CreateReq where
  resourceId : Nat
  userId : Nat
  startTime : Time
  endTime : Time
deriving DecidableEq, Repr

/-- Modelled from the spec (sections 4.2, 4.4, 5): the atomic create path —
resource lookup, resource-status check, interval validation, duration bounds,
conflict detection, then insertion as PENDING (auto-APPROVED when the
resource does not require approval). The check and the insert form one atomic
unit; concurrent requests are serialized through it. -/
def create (st : State) (q : CreateReq) : Except EngineError (State × Reservation) :=
  match st.resources.find? (fun res => res.id == q.resourceId) with
  | none => .error .NotFound
  | some res =>
    if res.status ≠ .DISPONIBLE then .error .ResourceUnavailable
    else if ¬ q.startTime < q.endTime then .error .ValidationError
    else if q.endTime - q.startTime < res.minReservationMinutes ∨
        res.maxReservationMinutes < q.endTime - q.startTime then .error .ValidationError
    else
      match findConflicts st q.resourceId q.startTime q.endTime none with
      | [] =>
        let newStatus : ReservationStatus :=
          if res.requiresApproval then .PENDING else .APPROVED
        let r : Reservation :=
          { id := st.nextId, resourceId := q.resourceId, userId := q.userId,
            startTime := q.startTime, endTime := q.endTime, status := newStatus,
            approvedById := none, approvedAt := none, rejectionReason := none,
            checkedInAt := none, checkedOutAt := none }
        .ok ({ st with reservations := r :: st.reservations, nextId := st.nextId + 1 }, r)
      | c :: _ => .error (.ConflictError c.id)

/-- Look up a reservation row by id. -/
def getReservation (st : State) (id : Nat) : Option Reservation :=
  st.reservations.find? (fun r => r.id == id)

/-- Apply `f` to the reservation row(s) carrying `id`. -/
def updateReservation (st : State) (id : Nat) (f : Reservation → Reservation) : State :=
  { st with reservations := st.reservations.map (fun r => if r.id = id then f r else r) }

/-- The row update performed by cancellation. -/
def cancelUpd (r : Reservation) : Reservation :=
  { r with status := .CANCELLED }

/-- The row update performed by approval: status plus approver metadata. -/
def approveUpd (approverId : Nat) (now : Time) (r : Reservation) : Reservation :=
  { r with status := .APPROVED, approvedById := some approverId, approvedAt := some now }

/-- The row update performed by rejection. -/
def rejectUpd (reason : String) (r : Reservation) : Reservation :=
  { r with status := .REJECTED, rejectionReason := some reason }

/-- The row update performed by check-in. -/
def checkInUpd (now : Time) (r : Reservation) : Reservation :=
  { r with checkedInAt := some now }

/-- The row update performed by check-out; the reservation is logically
COMPLETED. -/
def checkOutUpd (now : Time) (r : Reservation) : Reservation :=
  { r with checkedOutAt := some now, status := .COMPLETED }

/-- Modelled from the spec (section 4.4): PENDING or APPROVED → CANCELLED,
allowed any time before `start_time`; any other attempt is
`InvalidTransition`. -/
def cancel (st : State) (id : Nat) (now : Time) : Except EngineError (State × Reservation) :=
  match getReservation st id with
  | none => .error .NotFound
  | some r =>
    if isLive r.status = true ∧ now < r.startTime then
      .ok (updateReservation st id cancelUpd, cancelUpd r)
    else .error .InvalidTransition

/-- Modelled from the spec (section 4.4): PENDING → APPROVED, recording the
approver and timestamp and re-running the Conflict Detector at commit time
(excluding the reservation being approved). -/
def approve (st : State) (id : Nat) (approverId : Nat) (now : Time) :
    Except EngineError (State × Reservation) :=
  match getReservation st id with
  | none => .error .NotFound
  | some r =>
    if r.status = .PENDING then
      match findConflicts st r.resourceId r.startTime r.endTime (some id) with
      | [] =>
        .ok (updateReservation st id (approveUpd approverId now), approveUpd approverId now r)
      | c :: _ => .error (.ConflictError c.id)
    else .error .InvalidTransition

/-- Modelled from the spec (section 4.4): PENDING → REJECTED with a mandatory
rejection reason. -/
def reject (st : State) (id : Nat) (reason : String) :
    Except EngineError (State × Reservation) :=
  match getReservation st id with
  | none => .error .NotFound
  | some r =>
    if reason = "" then .error .ValidationError
    else if r.status = .PENDING then
      .ok (updateReservation st id (rejectUpd reason), rejectUpd reason r)
    else .error .InvalidTransition

/-- Modelled from the spec (section 4.4): check-in of an APPROVED,
not-yet-checked-in reservation, only within the configurable grace window
`[start_time - grace, start_time + grace]`; outside it the attempt is an
error. -/
def checkIn (st : State) (id : Nat) (now : Time) (grace : Time) :
    Except EngineError (State × Reservation) :=
  match getReservation st id with
  | none => .error .NotFound
  | some r =>
    if r.status = .APPROVED ∧ r.checkedInAt = none ∧
        r.startTime - grace ≤ now ∧ now ≤ r.startTime + grace then
      .ok (updateReservation st id (checkInUpd now), checkInUpd now r)
    else .error .InvalidTransition

/-- Modelled from the spec (section 4.4): check-out of a checked-in APPROVED
reservation, which becomes logically COMPLETED; only after check-in. -/
def checkOut (st : State) (id : Nat) (now : Time) :
    Except EngineError (State × Reservation) :=
  match getReservation st id with
  | none => .error .NotFound
  | some r =>
    if r.status = .APPROVED ∧ r.checkedInAt ≠ none ∧ r.checkedOutAt = none then
      .ok (updateReservation st id (checkOutUpd now), checkOutUpd now r)
    else .error .InvalidTransition

/-- Modelled from the spec (sections 3, 4.1): an administrator-driven resource
status change; it touches only the resource row, never the reservations. -/
def setResourceStatus (st : State) (resourceId : Nat) (newStatus : ResourceStatus) : State :=
  { st with resources := st.resources.map (fun res =>
      if res.id = resourceId then { res with status := newStatus } else res) }

/-- Insert a reservation into a list kept sorted by `startTime`. -/
def insertByStart (r : Reservation) : List Reservation → List Reservation
  | [] => [r]
  | x :: xs => if r.startTime ≤ x.startTime then r :: x :: xs else x :: insertByStart r xs

/-- Insertion sort by `startTime`, the ordering of list/calendar endpoint
results (section 6). -/
def sortByStart (l : List Reservation) : List Reservation :=
  l.foldr insertByStart []

/-- Modelled from the spec (section 6): the "my reservations" listing, ordered
by `start_time` ascending. -/
def myReservations (st : State) (userId : Nat) : List Reservation :=
  sortByStart (st.reservations.filter (fun r => r.userId == userId))

/-- Modelled from the spec (section 6): the resource calendar — occurrences in
a date range, ordered by `start_time` ascending. -/
def resourceCalendar (st : State) (resourceId : Nat) (startDate endDate : Time) :
    List Reservation :=
  sortByStart (st.reservations.filter
    (fun r => decide (r.resourceId = resourceId) &&
      overlaps r.startTime r.endTime startDate endDate))

/-- A list is ordered by `start_time` ascending. -/
def sortedByStart (l : List Reservation) : Prop :=
  l.Pairwise (fun a b => a.startTime ≤ b.startTime)

/-- The core safety invariant (sections 3, 8): no two distinct live
reservations on the same resource have overlapping half-open intervals. -/
def noOverlap (st : State) : Prop :=
  ∀ r1 ∈ st.reservations, ∀ r2 ∈ st.reservations,
    r1.id ≠ r2.id → r1.resourceId = r2.resourceId →
    isLive r1.status = true → isLive r2.status = true →
    overlaps r1.startTime r1.endTime r2.startTime r2.endTime = false

/-- Reservation rows carry pairwise distinct ids (the store's primary key). -/
def distinctIds : List Reservation → Prop
  | [] => True
  | r :: rest => (∀ x ∈ rest, x.id ≠ r.id) ∧ distinctIds rest

instance : DecidablePred distinctIds := by
  intro l
  induction l with
  | nil => exact .isTrue trivial
  | cons r rest ih => exact @instDecidableAnd _ _ _ ih

/-- The state's reservation ids are pairwise distinct. -/
def uniqueIds (st : State) : Prop :=
  distinctIds st.reservations

instance (st : State) : Decidable (uniqueIds st) := by
  unfold uniqueIds
  infer_instance

instance (st : State) : Decidable (noOverlap st) := by
  unfold noOverlap
  infer_instance

/-- Sequential processing of a batch of create requests through the atomic
create path (section 5 serializes racing requests): each request sees the
state left by the previous ones; per-request results are collected. -/
def runCreates (st : State) : List CreateReq → State × List (Except EngineError Reservation)
  | [] => (st, [])
  | q :: rest =>
    match create st q with
    | .ok (st', r) =>
      let next := runCreates st' rest
      (next.1, .ok r :: next.2)
    | .error e =>
      let next := runCreates st rest
      (next.1, .error e :: next.2)

/-- Whether a per-request result is a success. -/
def isOk : Except EngineError Reservation → Bool
  | .ok _ => true
  | .error _ => false

/-- Number of successful results in a batch. -/
def successCount (results : List (Except EngineError Reservation)) : Nat :=
  results.countP isOk

end Engine

namespace Engine

theorem overlaps_comm (s1 e1 s2 e2 : Time) :
    overlaps s1 e1 s2 e2 = overlaps s2 e2 s1 e1 := by
  unfold overlaps
  exact Bool.and_comm _ _

theorem overlaps_iff {s1 e1 s2 e2 : Time} :
    overlaps s1 e1 s2 e2 = true ↔ (s1 < e2 ∧ s2 < e1) := by
  unfold overlaps
  simp

theorem getReservation_mem {st : State} {id : Nat} {r : Reservation}
    (h : getReservation st id = some r) : r ∈ st.reservations ∧ r.id = id := by
  refine ⟨List.mem_of_find?_eq_some h, ?_⟩
  have hp := List.find?_some h
  simpa using hp

theorem distinctIds_eq_of_mem : ∀ {l : List Reservation}, distinctIds l →
    ∀ {a b : Reservation}, a ∈ l → b ∈ l → a.id = b.id → a = b := by
  intro l
  induction l with
  | nil =>
    intro _ a b ha _ _
    cases ha
  | cons x xs ih =>
    intro hd a b ha hb h
    obtain ⟨hx, hxs⟩ := hd
    rcases List.mem_cons.mp ha with rfl | ha'
    · rcases List.mem_cons.mp hb with rfl | hb'
      · rfl
      · exact absurd h.symm (hx b hb')
    · rcases List.mem_cons.mp hb with rfl | hb'
      · exact absurd h (hx a ha')
      · exact ih hxs ha' hb' h

theorem conflictsWith_false_overlaps {rid : Nat} {s e : Time} {r2 : Reservation}
    (h : conflictsWith rid s e none r2 = false) (hres : r2.resourceId = rid)
    (hl : isLive r2.status = true) : overlaps s e r2.startTime r2.endTime = false := by
  unfold conflictsWith at h
  simpa [hres, hl] using h

theorem create_ok_spec {st : State} {q : CreateReq} {st' : State} {r : Reservation}
    (h : create st q = .ok (st', r)) :
    ∃ res, st.resources.find? (fun x => x.id == q.resourceId) = some res ∧
      res.status = .DISPONIBLE ∧ q.startTime < q.endTime ∧
      res.minReservationMinutes ≤ q.endTime - q.startTime ∧
      q.endTime - q.startTime ≤ res.maxReservationMinutes ∧
      findConflicts st q.resourceId q.startTime q.endTime none = [] ∧
      r = { id := st.nextId, resourceId := q.resourceId, userId := q.userId,
            startTime := q.startTime, endTime := q.endTime,
            status := if res.requiresApproval then .PENDING else .APPROVED,
            approvedById := none, approvedAt := none, rejectionReason := none,
            checkedInAt := none, checkedOutAt := none } ∧
      st' = { st with reservations := r :: st.reservations, nextId := st.nextId + 1 } := by
  unfold create at h
  cases hf : st.resources.find? (fun x => x.id == q.resourceId) with
  | none =>
    rw [hf] at h
    exact absurd h (by simp)
  | some res =>
    rw [hf] at h
    dsimp only at h
    by_cases h1 : res.status ≠ .DISPONIBLE
    · rw [if_pos h1] at h
      exact absurd h (by simp)
    · rw [if_neg h1] at h
      by_cases h2 : ¬ q.startTime < q.endTime
      · rw [if_pos h2] at h
        exact absurd h (by simp)
      · rw [if_neg h2] at h
        by_cases h3 : q.endTime - q.startTime < res.minReservationMinutes ∨
            res.maxReservationMinutes < q.endTime - q.startTime
        · rw [if_pos h3] at h
          exact absurd h (by simp)
        · rw [if_neg h3] at h
          cases hc : findConflicts st q.resourceId q.startTime q.endTime none with
          | nil =>
            rw [hc] at h
            simp only [Except.ok.injEq, Prod.mk.injEq] at h
            push_neg at h1 h2 h3
            refine ⟨res, rfl, h1, h2, Nat.le_of_not_lt (by exact fun hlt => absurd hlt (by simpa using h3.1)), Nat.le_of_not_lt (by exact fun hlt => absurd hlt (by simpa using h3.2)), rfl, h.2.symm, ?_⟩
            rw [← h.1, ← h.2]
          | cons c rest =>
            rw [hc] at h
            exact absurd h (by simp)

theorem noOverlap_create {st st' : State} {q : CreateReq} {r : Reservation}
    (h : create st q = .ok (st', r)) (hinv : noOverlap st) : noOverlap st' := by
  obtain ⟨res, hf, hst, hv, hmin, hmax, hconf, hr, hst'⟩ := create_ok_spec h
  subst hst'
  intro r1 h1 r2 h2 hne hres hl1 hl2
  simp only [List.mem_cons] at h1 h2
  rcases h1 with rfl | h1 <;> rcases h2 with rfl | h2
  · exact absurd rfl hne
  · have hno := List.filter_eq_nil_iff.mp hconf r2 h2
    have hcf : conflictsWith q.resourceId q.startTime q.endTime none r2 = false :=
      Bool.eq_false_iff.mpr hno
    have hres2 : r2.resourceId = q.resourceId := by
      rw [← hres, hr]
    have hov := conflictsWith_false_overlaps hcf hres2 hl2
    rw [hr]
    exact hov
  · have hno := List.filter_eq_nil_iff.mp hconf r1 h1
    have hcf : conflictsWith q.resourceId q.startTime q.endTime none r1 = false :=
      Bool.eq_false_iff.mpr hno
    have hres1 : r1.resourceId = q.resourceId := by
      rw [hres, hr]
    have hov := conflictsWith_false_overlaps hcf hres1 hl1
    rw [hr, overlaps_comm]
    exact hov
  · exact hinv r1 h1 r2 h2 hne hres hl1 hl2

theorem noOverlap_updateReservation {st : State} {id : Nat} {r : Reservation}
    {f : Reservation → Reservation}
    (hu : uniqueIds st) (hget : getReservation st id = some r)
    (hfields : ∀ x, (f x).id = x.id ∧ (f x).resourceId = x.resourceId ∧
      (f x).startTime = x.startTime ∧ (f x).endTime = x.endTime)
    (hlive : isLive (f r).status = true → isLive r.status = true)
    (hinv : noOverlap st) : noOverlap (updateReservation st id f) := by
  have key : ∀ a ∈ st.reservations,
      (if a.id = id then f a else a).id = a.id ∧
      (if a.id = id then f a else a).resourceId = a.resourceId ∧
      (if a.id = id then f a else a).startTime = a.startTime ∧
      (if a.id = id then f a else a).endTime = a.endTime ∧
      (isLive (if a.id = id then f a else a).status = true → isLive a.status = true) := by
    intro a ha
    by_cases hia : a.id = id
    · have haeq : a = r := by
        refine distinctIds_eq_of_mem hu ha (getReservation_mem hget).1 ?_
        rw [hia, (getReservation_mem hget).2]
      subst haeq
      rw [if_pos hia]
      exact ⟨(hfields a).1, (hfields a).2.1, (hfields a).2.2.1, (hfields a).2.2.2, hlive⟩
    · rw [if_neg hia]
      exact ⟨rfl, rfl, rfl, rfl, fun hx => hx⟩
  intro r1 h1 r2 h2 hne hres hl1 hl2
  unfold updateReservation at h1 h2
  simp only [List.mem_map] at h1 h2
  obtain ⟨a1, ha1, rfl⟩ := h1
  obtain ⟨a2, ha2, rfl⟩ := h2
  obtain ⟨ki1, kr1, ks1, ke1, kl1⟩ := key a1 ha1
  obtain ⟨ki2, kr2, ks2, ke2, kl2⟩ := key a2 ha2
  have hne' : a1.id ≠ a2.id := by
    rw [← ki1, ← ki2]
    exact hne
  have hres' : a1.resourceId = a2.resourceId := by
    rw [← kr1, ← kr2]
    exact hres
  have hmain := hinv a1 ha1 a2 ha2 hne' hres' (kl1 hl1) (kl2 hl2)
  rw [ks1, ke1, ks2, ke2]
  exact hmain

theorem cancel_ok_spec {st : State} {id : Nat} {now : Time} {st' : State} {r' : Reservation}
    (h : cancel st id now = .ok (st', r')) :
    ∃ r, getReservation st id = some r ∧ isLive r.status = true ∧ now < r.startTime ∧
      st' = updateReservation st id cancelUpd ∧ r' = cancelUpd r := by
  unfold cancel at h
  cases hg : getReservation st id with
  | none =>
    rw [hg] at h
    exact absurd h (by simp)
  | some r =>
    rw [hg] at h
    dsimp only at h
    by_cases hc : isLive r.status = true ∧ now < r.startTime
    · rw [if_pos hc] at h
      simp only [Except.ok.injEq, Prod.mk.injEq] at h
      exact ⟨r, rfl, hc.1, hc.2, h.1.symm, h.2.symm⟩
    · rw [if_neg hc] at h
      exact absurd h (by simp)

theorem cancel_ok_of {st : State} {id : Nat} {now : Time} {r : Reservation}
    (hg : getReservation st id = some r) (hl : isLive r.status = true)
    (ht : now < r.startTime) :
    cancel st id now = .ok (updateReservation st id cancelUpd, cancelUpd r) := by
  unfold cancel
  rw [hg]
  dsimp only
  rw [if_pos ⟨hl, ht⟩]

theorem cancel_invalid {st : State} {id : Nat} {now : Time} {r : Reservation}
    (hg : getReservation st id = some r)
    (hc : ¬ (isLive r.status = true ∧ now < r.startTime)) :
    cancel st id now = .error .InvalidTransition := by
  unfold cancel
  rw [hg]
  dsimp only
  rw [if_neg hc]

theorem approve_ok_spec {st : State} {id : Nat} {aid : Nat} {now : Time} {st' : State}
    {r' : Reservation} (h : approve st id aid now = .ok (st', r')) :
    ∃ r, getReservation st id = some r ∧ r.status = .PENDING ∧
      findConflicts st r.resourceId r.startTime r.endTime (some id) = [] ∧
      st' = updateReservation st id (approveUpd aid now) ∧ r' = approveUpd aid now r := by
  unfold approve at h
  cases hg : getReservation st id with
  | none =>
    rw [hg] at h
    exact absurd h (by simp)
  | some r =>
    rw [hg] at h
    dsimp only at h
    by_cases hc : r.status = .PENDING
    · rw [if_pos hc] at h
      cases hcf : findConflicts st r.resourceId r.startTime r.endTime (some id) with
      | nil =>
        rw [hcf] at h
        simp only [Except.ok.injEq, Prod.mk.injEq] at h
        exact ⟨r, rfl, hc, hcf, h.1.symm, h.2.symm⟩
      | cons c rest =>
        rw [hcf] at h
        exact absurd h (by simp)
    · rw [if_neg hc] at h
      exact absurd h (by simp)

theorem reject_ok_spec {st : State} {id : Nat} {reason : String} {st' : State}
    {r' : Reservation} (h : reject st id reason = .ok (st', r')) :
    ∃ r, getReservation st id = some r ∧ reason ≠ "" ∧ r.status = .PENDING ∧
      st' = updateReservation st id (rejectUpd reason) ∧ r' = rejectUpd reason r := by
  unfold reject at h
  cases hg : getReservation st id with
  | none =>
    rw [hg] at h
    exact absurd h (by simp)
  | some r =>
    rw [hg] at h
    dsimp only at h
    by_cases he : reason = ""
    · rw [if_pos he] at h
      exact absurd h (by simp)
    · rw [if_neg he] at h
      by_cases hc : r.status = .PENDING
      · rw [if_pos hc] at h
        simp only [Except.ok.injEq, Prod.mk.injEq] at h
        exact ⟨r, rfl, he, hc, h.1.symm, h.2.symm⟩
      · rw [if_neg hc] at h
        exact absurd h (by simp)

theorem checkIn_ok_spec {st : State} {id : Nat} {now grace : Time} {st' : State}
    {r' : Reservation} (h : checkIn st id now grace = .ok (st', r')) :
    ∃ r, getReservation st id = some r ∧ r.status = .APPROVED ∧ r.checkedInAt = none ∧
      r.startTime - grace ≤ now ∧ now ≤ r.startTime + grace ∧
      st' = updateReservation st id (checkInUpd now) ∧ r' = checkInUpd now r := by
  unfold checkIn at h
  cases hg : getReservation st id with
  | none =>
    rw [hg] at h
    exact absurd h (by simp)
  | some r =>
    rw [hg] at h
    dsimp only at h
    by_cases hc : r.status = .APPROVED ∧ r.checkedInAt = none ∧
        r.startTime - grace ≤ now ∧ now ≤ r.startTime + grace
    · rw [if_pos hc] at h
      simp only [Except.ok.injEq, Prod.mk.injEq] at h
      exact ⟨r, rfl, hc.1, hc.2.1, hc.2.2.1, hc.2.2.2, h.1.symm, h.2.symm⟩
    · rw [if_neg hc] at h
      exact absurd h (by simp)

theorem checkIn_invalid {st : State} {id : Nat} {now grace : Time} {r : Reservation}
    (hg : getReservation st id = some r)
    (hc : ¬ (r.status = .APPROVED ∧ r.checkedInAt = none ∧
      r.startTime - grace ≤ now ∧ now ≤ r.startTime + grace)) :
    checkIn st id now grace = .error .InvalidTransition := by
  unfold checkIn
  rw [hg]
  dsimp only
  rw [if_neg hc]

theorem checkOut_ok_spec {st : State} {id : Nat} {now : Time} {st' : State}
    {r' : Reservation} (h : checkOut st id now = .ok (st', r')) :
    ∃ r, getReservation st id = some r ∧ r.status = .APPROVED ∧ r.checkedInAt ≠ none ∧
      r.checkedOutAt = none ∧
      st' = updateReservation st id (checkOutUpd now) ∧ r' = checkOutUpd now r := by
  unfold checkOut at h
  cases hg : getReservation st id with
  | none =>
    rw [hg] at h
    exact absurd h (by simp)
  | some r =>
    rw [hg] at h
    dsimp only at h
    by_cases hc : r.status = .APPROVED ∧ r.checkedInAt ≠ none ∧ r.checkedOutAt = none
    · rw [if_pos hc] at h
      simp only [Except.ok.injEq, Prod.mk.injEq] at h
      exact ⟨r, rfl, hc.1, hc.2.1, hc.2.2, h.1.symm, h.2.symm⟩
    · rw [if_neg hc] at h
      exact absurd h (by simp)

theorem checkOut_invalid {st : State} {id : Nat} {now : Time} {r : Reservation}
    (hg : getReservation st id = some r)
    (hc : ¬ (r.status = .APPROVED ∧ r.checkedInAt ≠ none ∧ r.checkedOutAt = none)) :
    checkOut st id now = .error .InvalidTransition := by
  unfold checkOut
  rw [hg]
  dsimp only
  rw [if_neg hc]

theorem noOverlap_cancel {st st' : State} {id : Nat} {now : Time} {r' : Reservation}
    (h : cancel st id now = .ok (st', r')) (hu : uniqueIds st) (hinv : noOverlap st) :
    noOverlap st' := by
  obtain ⟨r, hg, hl, ht, hst', hr'⟩ := cancel_ok_spec h
  subst hst'
  refine noOverlap_updateReservation hu hg (fun x => ⟨rfl, rfl, rfl, rfl⟩) ?_ hinv
  intro hcontra
  simp [cancelUpd, isLive] at hcontra

theorem noOverlap_approve {st st' : State} {id aid : Nat} {now : Time} {r' : Reservation}
    (h : approve st id aid now = .ok (st', r')) (hu : uniqueIds st) (hinv : noOverlap st) :
    noOverlap st' := by
  obtain ⟨r, hg, hp, hcf, hst', hr'⟩ := approve_ok_spec h
  subst hst'
  refine noOverlap_updateReservation hu hg (fun x => ⟨rfl, rfl, rfl, rfl⟩) ?_ hinv
  intro _
  rw [hp]
  rfl

theorem noOverlap_reject {st st' : State} {id : Nat} {reason : String} {r' : Reservation}
    (h : reject st id reason = .ok (st', r')) (hu : uniqueIds st) (hinv : noOverlap st) :
    noOverlap st' := by
  obtain ⟨r, hg, he, hp, hst', hr'⟩ := reject_ok_spec h
  subst hst'
  refine noOverlap_updateReservation hu hg (fun x => ⟨rfl, rfl, rfl, rfl⟩) ?_ hinv
  intro hcontra
  simp [rejectUpd, isLive] at hcontra

theorem noOverlap_checkIn {st st' : State} {id : Nat} {now grace : Time} {r' : Reservation}
    (h : checkIn st id now grace = .ok (st', r')) (hu : uniqueIds st) (hinv : noOverlap st) :
    noOverlap st' := by
  obtain ⟨r, hg, hp, hn, hw1, hw2, hst', hr'⟩ := checkIn_ok_spec h
  subst hst'
  refine noOverlap_updateReservation hu hg (fun x => ⟨rfl, rfl, rfl, rfl⟩) ?_ hinv
  intro _
  rw [hp]
  rfl

theorem noOverlap_checkOut {st st' : State} {id : Nat} {now : Time} {r' : Reservation}
    (h : checkOut st id now = .ok (st', r')) (hu : uniqueIds st) (hinv : noOverlap st) :
    noOverlap st' := by
  obtain ⟨r, hg, hp, hn, ho, hst', hr'⟩ := checkOut_ok_spec h
  subst hst'
  refine noOverlap_updateReservation hu hg (fun x => ⟨rfl, rfl, rfl, rfl⟩) ?_ hinv
  intro hcontra
  simp [checkOutUpd, isLive] at hcontra

theorem noOverlap_setResourceStatus {st : State} {resourceId : Nat}
    {newStatus : ResourceStatus} (hinv : noOverlap st) :
    noOverlap (setResourceStatus st resourceId newStatus) := by
  intro r1 h1 r2 h2
  exact hinv r1 h1 r2 h2

theorem setResourceStatus_reservations (st : State) (resourceId : Nat)
    (newStatus : ResourceStatus) :
    (setResourceStatus st resourceId newStatus).reservations = st.reservations := rfl

theorem find?_update (l : List Reservation) (id : Nat) (f : Reservation → Reservation)
    (hf : ∀ x, (f x).id = x.id) :
    (l.map (fun x => if x.id = id then f x else x)).find? (fun x => x.id == id)
      = (l.find? (fun x => x.id == id)).map (fun x => if x.id = id then f x else x) := by
  induction l with
  | nil => rfl
  | cons a l ih =>
    by_cases ha : a.id = id
    · have h1 : ((if a.id = id then f a else a).id == id) = true := by
        rw [if_pos ha, hf a]
        exact beq_iff_eq.mpr ha
      rw [List.map_cons, List.find?_cons_of_pos (p := fun x : Reservation => x.id == id) _ h1,
        List.find?_cons_of_pos (p := fun x : Reservation => x.id == id) _ (beq_iff_eq.mpr ha), Option.map_some']
    · have h1 : ¬ ((if a.id = id then f a else a).id == id) = true := by
        rw [if_neg ha]
        simpa using ha
      rw [List.map_cons, List.find?_cons_of_neg (p := fun x : Reservation => x.id == id) _ h1,
        List.find?_cons_of_neg (p := fun x : Reservation => x.id == id) _ (by simpa using ha), ih]

theorem getReservation_update {st : State} {id : Nat} {f : Reservation → Reservation}
    (hf : ∀ x, (f x).id = x.id) {r : Reservation} (hg : getReservation st id = some r) :
    getReservation (updateReservation st id f) id = some (f r) := by
  have hid : r.id = id := (getReservation_mem hg).2
  unfold getReservation updateReservation
  unfold getReservation at hg
  rw [find?_update _ _ _ hf]
  rw [hg, Option.map_some', if_pos hid]

theorem getReservation_create {st st' : State} {q : CreateReq} {r : Reservation}
    (h : create st q = .ok (st', r)) : getReservation st' r.id = some r := by
  obtain ⟨res, hf, hst, hv, hmin, hmax, hconf, hr, hst'⟩ := create_ok_spec h
  subst hst'
  unfold getReservation
  dsimp only
  rw [List.find?_cons_of_pos _ (by simp)]

theorem mem_insertByStart {r y : Reservation} {l : List Reservation} :
    y ∈ insertByStart r l ↔ y = r ∨ y ∈ l := by
  induction l with
  | nil => simp [insertByStart]
  | cons x xs ih =>
    unfold insertByStart
    by_cases h : r.startTime ≤ x.startTime
    · rw [if_pos h]
      simp [List.mem_cons]
    · rw [if_neg h]
      simp only [List.mem_cons, ih]
      tauto

theorem sortedByStart_insertByStart {r : Reservation} {l : List Reservation}
    (h : sortedByStart l) : sortedByStart (insertByStart r l) := by
  induction l with
  | nil => simp [insertByStart, sortedByStart]
  | cons x xs ih =>
    unfold sortedByStart at h
    rw [List.pairwise_cons] at h
    obtain ⟨hx, hxs⟩ := h
    unfold insertByStart
    by_cases hle : r.startTime ≤ x.startTime
    · rw [if_pos hle]
      unfold sortedByStart
      rw [List.pairwise_cons]
      refine ⟨?_, ?_⟩
      · intro y hy
        rcases List.mem_cons.mp hy with rfl | hy'
        · exact hle
        · exact le_trans hle (hx y hy')
      · rw [List.pairwise_cons]
        exact ⟨hx, hxs⟩
    · rw [if_neg hle]
      unfold sortedByStart
      rw [List.pairwise_cons]
      refine ⟨?_, ?_⟩
      · intro y hy
        rcases mem_insertByStart.mp hy with rfl | hy'
        · exact le_of_not_le hle
        · exact hx y hy'
      · exact ih hxs

theorem sortedByStart_sortByStart (l : List Reservation) : sortedByStart (sortByStart l) := by
  unfold sortByStart
  induction l with
  | nil => simp [sortedByStart]
  | cons x xs ih => exact sortedByStart_insertByStart ih

theorem sortedByStart_myReservations (st : State) (userId : Nat) :
    sortedByStart (myReservations st userId) :=
  sortedByStart_sortByStart _

theorem sortedByStart_resourceCalendar (st : State) (resourceId : Nat)
    (startDate endDate : Time) :
    sortedByStart (resourceCalendar st resourceId startDate endDate) :=
  sortedByStart_sortByStart _

theorem create_not_ok_of_conflict {st : State} {q : CreateReq} {r0 : Reservation}
    (hmem : r0 ∈ st.reservations)
    (hc : conflictsWith q.resourceId q.startTime q.endTime none r0 = true) :
    ∀ p, create st q ≠ .ok p := by
  intro p h
  obtain ⟨st', r⟩ := p
  obtain ⟨res, _, _, _, _, _, hconf, _, _⟩ := create_ok_spec h
  exact (List.filter_eq_nil_iff.mp hconf r0 hmem) hc

theorem runCreates_all_fail {r0 : Reservation} : ∀ {st : State} {qs : List CreateReq},
    r0 ∈ st.reservations →
    (∀ q ∈ qs, conflictsWith q.resourceId q.startTime q.endTime none r0 = true) →
    (runCreates st qs).1 = st ∧ successCount (runCreates st qs).2 = 0 := by
  intro st qs
  induction qs with
  | nil =>
    intro _ _
    exact ⟨rfl, rfl⟩
  | cons q rest ih =>
    intro hmem hq
    have hne := create_not_ok_of_conflict hmem (hq q (List.mem_cons_self q rest))
    unfold runCreates
    cases hcr : create st q with
    | ok p => exact absurd hcr (hne p)
    | error e =>
      have ih' := ih hmem (fun q' hq' => hq q' (List.mem_cons_of_mem _ hq'))
      refine ⟨ih'.1, ?_⟩
      unfold successCount at ih' ⊢
      dsimp only
      rw [List.countP_cons]
      simp [isOk, ih'.2]

theorem create_ok_of {st : State} {q : CreateReq} {res : Resource}
    (hf : st.resources.find? (fun x => x.id == q.resourceId) = some res)
    (hst : res.status = .DISPONIBLE) (hv : q.startTime < q.endTime)
    (hmin : res.minReservationMinutes ≤ q.endTime - q.startTime)
    (hmax : q.endTime - q.startTime ≤ res.maxReservationMinutes)
    (hconf : findConflicts st q.resourceId q.startTime q.endTime none = []) :
    ∃ st' r, create st q = .ok (st', r) ∧ st'.reservations = r :: st.reservations ∧
      r.resourceId = q.resourceId ∧ r.startTime = q.startTime ∧ r.endTime = q.endTime ∧
      isLive r.status = true := by
  unfold create
  rw [hf]
  dsimp only
  rw [if_neg (by simp [hst]), if_neg (not_not_intro hv),
    if_neg (by simp [Nat.not_lt.mpr hmin, Nat.not_lt.mpr hmax]), hconf]
  refine ⟨_, _, rfl, rfl, rfl, rfl, rfl, ?_⟩
  cases hra : res.requiresApproval <;> simp [isLive, hra]

theorem runCreates_exactly_one {st : State} {q0 : CreateReq} {qs : List CreateReq}
    {res : Resource}
    (hf : st.resources.find? (fun x => x.id == q0.resourceId) = some res)
    (hst : res.status = .DISPONIBLE) (hv : q0.startTime < q0.endTime)
    (hmin : res.minReservationMinutes ≤ q0.endTime - q0.startTime)
    (hmax : q0.endTime - q0.startTime ≤ res.maxReservationMinutes)
    (hconf : findConflicts st q0.resourceId q0.startTime q0.endTime none = [])
    (hres : ∀ q ∈ qs, q.resourceId = q0.resourceId)
    (hov : ∀ q ∈ qs, overlaps q0.startTime q0.endTime q.startTime q.endTime = true) :
    successCount (runCreates st (q0 :: qs)).2 = 1 := by
  obtain ⟨st1, r0, hcr, hrs, hrid, hs, he, hl⟩ := create_ok_of hf hst hv hmin hmax hconf
  unfold runCreates
  rw [hcr]
  have hmem : r0 ∈ st1.reservations := by
    rw [hrs]
    exact List.mem_cons_self _ _
  have hq : ∀ q ∈ qs, conflictsWith q.resourceId q.startTime q.endTime none r0 = true := by
    intro q hqm
    unfold conflictsWith
    have h1 : r0.resourceId = q.resourceId := by
      rw [hrid, hres q hqm]
    have h2 : overlaps q.startTime q.endTime r0.startTime r0.endTime = true := by
      rw [overlaps_comm, hs, he]
      exact hov q hqm
    simp [h1, hl, h2]
  have hall := runCreates_all_fail hmem hq
  unfold successCount at hall ⊢
  dsimp only
  rw [List.countP_cons]
  simp [isOk, hall.2]

theorem mem_findConflicts_iff {st : State} {rid : Nat} {s e : Time} {r : Reservation}
    (hmem : r ∈ st.reservations) (hres : r.resourceId = rid)
    (hl : isLive r.status = true) :
    r ∈ findConflicts st rid s e none ↔ (s < r.endTime ∧ r.startTime < e) := by
  unfold findConflicts
  rw [List.mem_filter]
  unfold conflictsWith overlaps
  simp [hmem, hres, hl]

theorem backToBack_accepted {st st1 : State} {q1 q2 : CreateReq} {r1 : Reservation}
    {res : Resource}
    (h1 : create st q1 = .ok (st1, r1))
    (hb : q2.startTime = q1.endTime)
    (hf : st.resources.find? (fun x => x.id == q2.resourceId) = some res)
    (hst : res.status = .DISPONIBLE) (hv : q2.startTime < q2.endTime)
    (hmin : res.minReservationMinutes ≤ q2.endTime - q2.startTime)
    (hmax : q2.endTime - q2.startTime ≤ res.maxReservationMinutes)
    (hconf : findConflicts st q2.resourceId q2.startTime q2.endTime none = []) :
    ∃ st2 r2, create st1 q2 = .ok (st2, r2) := by
  obtain ⟨res1, hf1, hst1, hv1, hmin1, hmax1, hconf1, hr1, hsteq⟩ := create_ok_spec h1
  have hfr : st1.resources.find? (fun x => x.id == q2.resourceId) = some res := by
    rw [hsteq]
    exact hf
  have hconf2 : findConflicts st1 q2.resourceId q2.startTime q2.endTime none = [] := by
    rw [hsteq]
    unfold findConflicts
    dsimp only
    rw [List.filter_cons]
    have hpr1 : conflictsWith q2.resourceId q2.startTime q2.endTime none r1 = false := by
      unfold conflictsWith overlaps
      rw [hr1]
      simp [hb]
    rw [hpr1]
    simp only [Bool.false_eq_true, if_false]
    exact hconf
  obtain ⟨st2, r2, hcr, _⟩ := create_ok_of hfr hst hv hmin hmax hconf2
  exact ⟨st2, r2, hcr⟩

theorem create_unavailable {st : State} {q : CreateReq} {res : Resource}
    (hf : st.resources.find? (fun x => x.id == q.resourceId) = some res)
    (hst : res.status ≠ .DISPONIBLE) :
    create st q = .error .ResourceUnavailable := by
  unfold create
  rw [hf]
  dsimp only
  rw [if_pos hst]

theorem isLive_iff {s : ReservationStatus} :
    isLive s = true ↔ (s = .PENDING ∨ s = .APPROVED) := by
  cases s <;> simp [isLive]

end Engine

/-- C8: for every reservation value, the check-in and check-out availability
predicates of the My Reservations page are never both true: `canCheckIn`
requires `checkedInAt` to be absent (falsy) while `canCheckOut` requires it to
be present (truthy), so at most one of the two actions is offered. -/
theorem canCheckIn_canCheckOut_exclusive (r : Frontend.Reservation) :
    (Frontend.canCheckIn r && Frontend.canCheckOut r) = false := by
  unfold Frontend.canCheckIn Frontend.canCheckOut
  cases ht : Frontend.truthy r.checkedInAt <;> simp [ht]

/-- C9: `transformReservation` maps every snake_case payload field to its
camelCase counterpart preserving its value — in particular `start_time`,
`end_time`, `checked_in_at`, `checked_out_at` and `status` — and the output's
`resource` field is defined iff the input's `resource` field is present, in
which case it is `transformResourceListItem` applied to it. -/
theorem transformReservation_fields (d : Frontend.ReservationPayload) :
    (Frontend.transformReservation d).id = d.id ∧
    (Frontend.transformReservation d).resourceId = d.resource_id ∧
    (Frontend.transformReservation d).userId = d.user_id ∧
    (Frontend.transformReservation d).startTime = d.start_time ∧
    (Frontend.transformReservation d).endTime = d.end_time ∧
    (Frontend.transformReservation d).title = d.title ∧
    (Frontend.transformReservation d).description = d.description ∧
    (Frontend.transformReservation d).attendeesCount = d.attendees_count ∧
    (Frontend.transformReservation d).status = d.status ∧
    (Frontend.transformReservation d).approvedById = d.approved_by_id ∧
    (Frontend.transformReservation d).approvedAt = d.approved_at ∧
    (Frontend.transformReservation d).rejectionReason = d.rejection_reason ∧
    (Frontend.transformReservation d).checkedInAt = d.checked_in_at ∧
    (Frontend.transformReservation d).checkedOutAt = d.checked_out_at ∧
    (Frontend.transformReservation d).isRecurring = d.is_recurring ∧
    (Frontend.transformReservation d).createdAt = d.created_at ∧
    (Frontend.transformReservation d).updatedAt = d.updated_at ∧
    (Frontend.transformReservation d).resource
      = d.resource.map Frontend.transformResourceListItem ∧
    ((Frontend.transformReservation d).resource.isSome ↔ d.resource.isSome) := by
  refine ⟨rfl, rfl, rfl, rfl, rfl, rfl, rfl, rfl, rfl, rfl, rfl, rfl, rfl, rfl, rfl,
    rfl, rfl, rfl, ?_⟩
  cases hr : d.resource <;> simp [Frontend.transformReservation, hr]

/-- C10: `handleApiError` totally maps every input to a record with a string
`detail` and a numeric `status`: a non-Axios error yields the fixed fallback
record with status 500; an Axios error without a response yields the error
message and the default status 500; an Axios error with a response but no
`data.detail` falls back to the error message, and its status is the response
status (500 when that is unavailable/falsy). -/
theorem handleApiError_total_defaults :
    (∀ m, Frontend.handleApiError (.axiosErr none m) = { detail := m, status := 500 }) ∧
    (Frontend.handleApiError .otherErr
      = { detail := "An unexpected error occurred", status := 500 }) ∧
    (∀ resp m, (Frontend.handleApiError (.axiosErr (some resp) m)).detail
        = Frontend.jsOrStr resp.dataDetail m ∧
      (Frontend.handleApiError (.axiosErr (some resp) m)).status
        = (if resp.status = 0 then 500 else resp.status)) ∧
    (∀ m s, (Frontend.handleApiError (.axiosErr (some ⟨none, s⟩) m)).detail = m) := by
  refine ⟨fun m => rfl, rfl, fun resp m => ⟨rfl, rfl⟩, fun m s => rfl⟩

/-- C1: for each resource, no two distinct live (PENDING or APPROVED)
reservations ever have overlapping `[start_time, end_time)` intervals: every
engine operation preserves the no-overlap invariant (the row-updating
operations under the store's primary-key uniqueness), and of N concurrent
create requests with pairwise-intersecting valid intervals on one available
resource — serialized through the atomic check-and-commit — exactly one
succeeds. -/
theorem live_reservations_never_overlap :
    (∀ st q st' r, Engine.create st q = .ok (st', r) →
      Engine.noOverlap st → Engine.noOverlap st') ∧
    (∀ st id now st' r, Engine.cancel st id now = .ok (st', r) →
      Engine.uniqueIds st → Engine.noOverlap st → Engine.noOverlap st') ∧
    (∀ st id aid now st' r, Engine.approve st id aid now = .ok (st', r) →
      Engine.uniqueIds st → Engine.noOverlap st → Engine.noOverlap st') ∧
    (∀ st id reason st' r, Engine.reject st id reason = .ok (st', r) →
      Engine.uniqueIds st → Engine.noOverlap st → Engine.noOverlap st') ∧
    (∀ st id now grace st' r, Engine.checkIn st id now grace = .ok (st', r) →
      Engine.uniqueIds st → Engine.noOverlap st → Engine.noOverlap st') ∧
    (∀ st id now st' r, Engine.checkOut st id now = .ok (st', r) →
      Engine.uniqueIds st → Engine.noOverlap st → Engine.noOverlap st') ∧
    (∀ st rid s, Engine.noOverlap st →
      Engine.noOverlap (Engine.setResourceStatus st rid s)) ∧
    (∀ (st : Engine.State) (q0 : Engine.CreateReq) (qs : List Engine.CreateReq)
        (res : Engine.Resource),
      st.resources.find? (fun x => x.id == q0.resourceId) = some res →
      res.status = .DISPONIBLE → q0.startTime < q0.endTime →
      res.minReservationMinutes ≤ q0.endTime - q0.startTime →
      q0.endTime - q0.startTime ≤ res.maxReservationMinutes →
      Engine.findConflicts st q0.resourceId q0.startTime q0.endTime none = [] →
      (∀ q ∈ qs, q.resourceId = q0.resourceId) →
      (q0 :: qs).Pairwise (fun a b =>
        Engine.overlaps a.startTime a.endTime b.startTime b.endTime = true) →
      Engine.successCount (Engine.runCreates st (q0 :: qs)).2 = 1) := by
  refine ⟨?_, ?_, ?_, ?_, ?_, ?_, ?_, ?_⟩
  · intro st q st' r h hinv
    exact Engine.noOverlap_create h hinv
  · intro st id now st' r h hu hinv
    exact Engine.noOverlap_cancel h hu hinv
  · intro st id aid now st' r h hu hinv
    exact Engine.noOverlap_approve h hu hinv
  · intro st id reason st' r h hu hinv
    exact Engine.noOverlap_reject h hu hinv
  · intro st id now grace st' r h hu hinv
    exact Engine.noOverlap_checkIn h hu hinv
  · intro st id now st' r h hu hinv
    exact Engine.noOverlap_checkOut h hu hinv
  · intro st rid s hinv
    exact Engine.noOverlap_setResourceStatus hinv
  · intro st q0 qs res hf hst hv hmin hmax hconf hres hpair
    rw [List.pairwise_cons] at hpair
    exact Engine.runCreates_exactly_one hf hst hv hmin hmax hconf hres hpair.1

/-- Witness for C1 at a concrete engine state: three pairwise-intersecting
create requests on one free resource — exactly one succeeds. -/
theorem live_reservations_never_overlap_witness :
    Engine.successCount (Engine.runCreates ⟨[⟨1, .DISPONIBLE, true, 0, 1000⟩], [], 0⟩
      [⟨1, 7, 10, 20⟩, ⟨1, 8, 15, 25⟩, ⟨1, 9, 12, 18⟩]).2 = 1 :=
  live_reservations_never_overlap.2.2.2.2.2.2.2
    ⟨[⟨1, .DISPONIBLE, true, 0, 1000⟩], [], 0⟩
    ⟨1, 7, 10, 20⟩ [⟨1, 8, 15, 25⟩, ⟨1, 9, 12, 18⟩]
    ⟨1, .DISPONIBLE, true, 0, 1000⟩
    (by decide) (by decide) (by decide) (by decide) (by decide) (by decide)
    (by decide) (by decide)

/-- C2: the Conflict Detector reports a proposed interval `[s,e)` as
conflicting with an existing live reservation's interval exactly when
`s1 < e2 AND s2 < e1` (half-open semantics); in particular a back-to-back
pair (`e1 == s2`) is never a conflict, and both such bookings are accepted by
the create path. -/
theorem conflict_detector_halfopen :
    (∀ (st : Engine.State) (rid : Nat) (s e : Engine.Time) (r : Engine.Reservation),
      r ∈ st.reservations → r.resourceId = rid → Engine.isLive r.status = true →
      (r ∈ Engine.findConflicts st rid s e none ↔ (s < r.endTime ∧ r.startTime < e))) ∧
    (∀ s1 e1 s2 e2 : Engine.Time,
      Engine.overlaps s1 e1 s2 e2 = true ↔ (s1 < e2 ∧ s2 < e1)) ∧
    (∀ s1 m e2 : Engine.Time, Engine.overlaps s1 m m e2 = false) ∧
    (∀ (st st1 : Engine.State) (q1 q2 : Engine.CreateReq) (r1 : Engine.Reservation)
        (res : Engine.Resource),
      Engine.create st q1 = .ok (st1, r1) →
      q2.startTime = q1.endTime →
      st.resources.find? (fun x => x.id == q2.resourceId) = some res →
      res.status = .DISPONIBLE → q2.startTime < q2.endTime →
      res.minReservationMinutes ≤ q2.endTime - q2.startTime →
      q2.endTime - q2.startTime ≤ res.maxReservationMinutes →
      Engine.findConflicts st q2.resourceId q2.startTime q2.endTime none = [] →
      ∃ st2 r2, Engine.create st1 q2 = .ok (st2, r2)) := by
  refine ⟨?_, ?_, ?_, ?_⟩
  · intro st rid s e r hmem hres hl
    exact Engine.mem_findConflicts_iff hmem hres hl
  · intro s1 e1 s2 e2
    exact Engine.overlaps_iff
  · intro s1 m e2
    simp [Engine.overlaps]
  · intro st st1 q1 q2 r1 res h1 hb hf hst hv hmin hmax hconf
    exact Engine.backToBack_accepted h1 hb hf hst hv hmin hmax hconf

/-- Witness for C2: on a concrete free resource, the booking `[10,20)` is
created and the back-to-back booking `[20,30)` is then also accepted. -/
theorem conflict_detector_halfopen_witness :
    ∃ st2 r2, Engine.create
      ⟨[⟨1, .DISPONIBLE, true, 0, 1000⟩],
        [⟨0, 1, 7, 10, 20, .PENDING, none, none, none, none, none⟩], 1⟩
      ⟨1, 8, 20, 30⟩ = .ok (st2, r2) :=
  conflict_detector_halfopen.2.2.2
    ⟨[⟨1, .DISPONIBLE, true, 0, 1000⟩], [], 0⟩
    ⟨[⟨1, .DISPONIBLE, true, 0, 1000⟩],
      [⟨0, 1, 7, 10, 20, .PENDING, none, none, none, none, none⟩], 1⟩
    ⟨1, 7, 10, 20⟩ ⟨1, 8, 20, 30⟩
    ⟨0, 1, 7, 10, 20, .PENDING, none, none, none, none, none⟩
    ⟨1, .DISPONIBLE, true, 0, 1000⟩
    rfl (by decide) (by decide) (by decide) (by decide) (by decide)
    (by decide) (by decide)

/-- C3: a resource whose status is not AVAILABLE (`DISPONIBLE`) rejects new
booking requests — the UI's "Reservar" button is disabled exactly for such
resources and the create path refuses the request — while existing bookings
are untouched by a resource status change. -/
theorem unavailable_resource_rejects_new_bookings :
    (∀ resource : Frontend.ResourceListItem,
      Frontend.reserveButtonDisabled resource = true ↔ resource.status ≠ .DISPONIBLE) ∧
    (∀ (st : Engine.State) (q : Engine.CreateReq) (res : Engine.Resource),
      st.resources.find? (fun x => x.id == q.resourceId) = some res →
      res.status ≠ .DISPONIBLE →
      Engine.create st q = .error .ResourceUnavailable) ∧
    (∀ (st : Engine.State) (rid : Nat) (s : ResourceStatus),
      (Engine.setResourceStatus st rid s).reservations = st.reservations) := by
  refine ⟨?_, ?_, ?_⟩
  · intro resource
    unfold Frontend.reserveButtonDisabled
    simp
  · intro st q res hf hst
    exact Engine.create_unavailable hf hst
  · intro st rid s
    exact Engine.setResourceStatus_reservations st rid s

/-- Witness for C3: a concrete resource in maintenance status — its card
button is disabled and a create request against it returns
`ResourceUnavailable`. -/
theorem unavailable_resource_rejects_new_bookings_witness :
    Frontend.reserveButtonDisabled
      ⟨1, "Lab A", "LAB-A", .EQUIPO, none, none, .MANTENIMIENTO, true, none⟩ = true ∧
    Engine.create ⟨[⟨1, .MANTENIMIENTO, true, 0, 1000⟩], [], 0⟩ ⟨1, 7, 10, 20⟩
      = .error .ResourceUnavailable :=
  ⟨(unavailable_resource_rejects_new_bookings.1
      ⟨1, "Lab A", "LAB-A", .EQUIPO, none, none, .MANTENIMIENTO, true, none⟩).mpr
      (by decide),
    unavailable_resource_rejects_new_bookings.2.1
      ⟨[⟨1, .MANTENIMIENTO, true, 0, 1000⟩], [], 0⟩ ⟨1, 7, 10, 20⟩
      ⟨1, .MANTENIMIENTO, true, 0, 1000⟩ (by decide) (by decide)⟩

/-- C4: cancellation of a reservation succeeds exactly when its status is
live (PENDING or APPROVED) and the attempt happens before `start_time`; an
attempt at or after `start_time`, or from any other status, fails with
`InvalidTransition`. The My Reservations page offers the cancel action
exactly for the live statuses. -/
theorem cancel_only_live_before_start :
    (∀ (st : Engine.State) (id : Nat) (now : Engine.Time) (r : Engine.Reservation),
      Engine.getReservation st id = some r →
      ((∃ st' r', Engine.cancel st id now = .ok (st', r')) ↔
        ((r.status = .PENDING ∨ r.status = .APPROVED) ∧ now < r.startTime))) ∧
    (∀ (st : Engine.State) (id : Nat) (now : Engine.Time) (r : Engine.Reservation),
      Engine.getReservation st id = some r →
      ¬ ((r.status = .PENDING ∨ r.status = .APPROVED) ∧ now < r.startTime) →
      Engine.cancel st id now = .error .InvalidTransition) ∧
    (∀ r : Frontend.Reservation,
      Frontend.canCancel r = true ↔ (r.status = .PENDING ∨ r.status = .APPROVED)) := by
  refine ⟨?_, ?_, ?_⟩
  · intro st id now r hg
    constructor
    · rintro ⟨st', r', h⟩
      obtain ⟨r0, hg0, hl0, ht0, _, _⟩ := Engine.cancel_ok_spec h
      have hr0 : r0 = r := by
        have := hg0.symm.trans hg
        exact Option.some.inj this
      subst hr0
      exact ⟨Engine.isLive_iff.mp hl0, ht0⟩
    · rintro ⟨hs, ht⟩
      exact ⟨_, _, Engine.cancel_ok_of hg (Engine.isLive_iff.mpr hs) ht⟩
  · intro st id now r hg hc
    refine Engine.cancel_invalid hg ?_
    intro ⟨hl, ht⟩
    exact hc ⟨Engine.isLive_iff.mp hl, ht⟩
  · intro r
    unfold Frontend.canCancel
    simp

/-- Witness for C4 on a concrete PENDING reservation starting at time 10:
cancellation at time 3 succeeds, cancellation at time 15 fails with
`InvalidTransition`. -/
theorem cancel_only_live_before_start_witness :
    (∃ st' r', Engine.cancel
      ⟨[⟨1, .DISPONIBLE, true, 0, 1000⟩],
        [⟨5, 1, 7, 10, 20, .PENDING, none, none, none, none, none⟩], 6⟩
      5 3 = .ok (st', r')) ∧
    Engine.cancel
      ⟨[⟨1, .DISPONIBLE, true, 0, 1000⟩],
        [⟨5, 1, 7, 10, 20, .PENDING, none, none, none, none, none⟩], 6⟩
      5 15 = .error .InvalidTransition :=
  ⟨(cancel_only_live_before_start.1
      ⟨[⟨1, .DISPONIBLE, true, 0, 1000⟩],
        [⟨5, 1, 7, 10, 20, .PENDING, none, none, none, none, none⟩], 6⟩
      5 3 ⟨5, 1, 7, 10, 20, .PENDING, none, none, none, none, none⟩ rfl).mpr
      (by decide),
    cancel_only_live_before_start.2.1
      ⟨[⟨1, .DISPONIBLE, true, 0, 1000⟩],
        [⟨5, 1, 7, 10, 20, .PENDING, none, none, none, none, none⟩], 6⟩
      5 15 ⟨5, 1, 7, 10, 20, .PENDING, none, none, none, none, none⟩ rfl
      (by decide)⟩

/-- C5: a check-in (setting `checked_in_at`) is recorded only for an APPROVED,
not-yet-checked-in reservation and only within the configurable grace window
around `start_time`; an attempt outside the window is an error
(`InvalidTransition`). The My Reservations page offers check-in only for
APPROVED reservations. -/
theorem checkin_only_in_grace_window :
    (∀ (st : Engine.State) (id : Nat) (now grace : Engine.Time)
        (st' : Engine.State) (r' : Engine.Reservation),
      Engine.checkIn st id now grace = .ok (st', r') →
      ∃ r, Engine.getReservation st id = some r ∧ r.status = .APPROVED ∧
        r.checkedInAt = none ∧ r.startTime - grace ≤ now ∧ now ≤ r.startTime + grace ∧
        r'.checkedInAt = some now) ∧
    (∀ (st : Engine.State) (id : Nat) (now grace : Engine.Time) (r : Engine.Reservation),
      Engine.getReservation st id = some r →
      ¬ (r.startTime - grace ≤ now ∧ now ≤ r.startTime + grace) →
      Engine.checkIn st id now grace = .error .InvalidTransition) ∧
    (∀ r : Frontend.Reservation, Frontend.canCheckIn r = true → r.status = .APPROVED) := by
  refine ⟨?_, ?_, ?_⟩
  · intro st id now grace st' r' h
    obtain ⟨r, hg, hs, hn, hw1, hw2, hst', hr'⟩ := Engine.checkIn_ok_spec h
    refine ⟨r, hg, hs, hn, hw1, hw2, ?_⟩
    rw [hr']
    rfl
  · intro st id now grace r hg hw
    refine Engine.checkIn_invalid hg ?_
    intro ⟨_, _, hw1, hw2⟩
    exact hw ⟨hw1, hw2⟩
  · intro r h
    unfold Frontend.canCheckIn at h
    simp at h
    exact h.1

/-- Witness for C5 on a concrete APPROVED reservation starting at time 10
with grace 2: check-in at time 9 succeeds and records the timestamp; check-in
at time 20 (outside `[8, 12]`) fails with `InvalidTransition`. -/
theorem checkin_only_in_grace_window_witness :
    (∃ r, Engine.getReservation
        ⟨[⟨1, .DISPONIBLE, true, 0, 1000⟩],
          [⟨5, 1, 7, 10, 20, .APPROVED, none, none, none, none, none⟩], 6⟩ 5 = some r ∧
      r.status = .APPROVED ∧ r.checkedInAt = none ∧
      (10 : Engine.Time) - 2 ≤ 9 ∧ (9 : Engine.Time) ≤ 10 + 2 ∧
      ((Engine.checkInUpd 9 r).checkedInAt = some 9)) ∧
    Engine.checkIn
      ⟨[⟨1, .DISPONIBLE, true, 0, 1000⟩],
        [⟨5, 1, 7, 10, 20, .APPROVED, none, none, none, none, none⟩], 6⟩
      5 20 2 = .error .InvalidTransition := by
  constructor
  · obtain ⟨r, hg, hs, hn, hw1, hw2, hr⟩ := checkin_only_in_grace_window.1
      ⟨[⟨1, .DISPONIBLE, true, 0, 1000⟩],
        [⟨5, 1, 7, 10, 20, .APPROVED, none, none, none, none, none⟩], 6⟩
      5 9 2 _ _ rfl
    have hr5 : r = ⟨5, 1, 7, 10, 20, .APPROVED, none, none, none, none, none⟩ :=
      Option.some.inj hg.symm
    refine ⟨r, hg, hs, hn, by decide, by decide, ?_⟩
    rw [hr5]
    rfl
  · exact checkin_only_in_grace_window.2.1
      ⟨[⟨1, .DISPONIBLE, true, 0, 1000⟩],
        [⟨5, 1, 7, 10, 20, .APPROVED, none, none, none, none, none⟩], 6⟩
      5 20 2 ⟨5, 1, 7, 10, 20, .APPROVED, none, none, none, none, none⟩ rfl
      (by decide)

/-- C6: a check-out (setting `checked_out_at`, completing the reservation as
COMPLETED) is permitted only after a check-in: the My Reservations page
offers check-out exactly for an APPROVED reservation with `checkedInAt`
present and `checkedOutAt` absent, and the engine records a check-out only
for an APPROVED, checked-in, not-yet-checked-out reservation. -/
theorem checkout_only_after_checkin :
    (∀ r : Frontend.Reservation, Frontend.canCheckOut r = true ↔
      (r.status = .APPROVED ∧ Frontend.truthy r.checkedInAt = true ∧
        Frontend.truthy r.checkedOutAt = false)) ∧
    (∀ r : Frontend.Reservation, Frontend.canCheckOut r = true → r.checkedInAt ≠ none) ∧
    (∀ (st : Engine.State) (id : Nat) (now : Engine.Time) (st' : Engine.State)
        (r' : Engine.Reservation),
      Engine.checkOut st id now = .ok (st', r') →
      ∃ r, Engine.getReservation st id = some r ∧ r.status = .APPROVED ∧
        r.checkedInAt ≠ none ∧ r.checkedOutAt = none ∧
        r'.checkedOutAt = some now ∧ r'.status = .COMPLETED) := by
  refine ⟨?_, ?_, ?_⟩
  · intro r
    unfold Frontend.canCheckOut
    constructor
    · intro h
      simp at h
      exact ⟨h.1.1, h.1.2, h.2⟩
    · intro ⟨h1, h2, h3⟩
      simp [h1, h2, h3]
  · intro r h
    unfold Frontend.canCheckOut at h
    simp at h
    intro hn
    rw [hn] at h
    exact absurd h.1.2 (by simp [Frontend.truthy])
  · intro st id now st' r' h
    obtain ⟨r, hg, hs, hin, hout, hst', hr'⟩ := Engine.checkOut_ok_spec h
    refine ⟨r, hg, hs, hin, hout, ?_, ?_⟩ <;> rw [hr'] <;> rfl

/-- Witness for C6: a concrete checked-in APPROVED reservation is offered
check-out by the page predicate, and a concrete engine check-out records the
timestamp and completes the reservation. -/
theorem checkout_only_after_checkin_witness :
    Frontend.canCheckOut
      ⟨5, 1, 7, "a", "b", "t", none, none, .APPROVED, none, none, none,
        some "2026-01-01", none, false, "c", "d", none⟩ = true ∧
    (∃ r, Engine.getReservation
        ⟨[⟨1, .DISPONIBLE, true, 0, 1000⟩],
          [⟨5, 1, 7, 10, 20, .APPROVED, none, none, none, some 11, none⟩], 6⟩ 5
        = some r ∧ r.status = .APPROVED ∧ r.checkedInAt ≠ none ∧
      r.checkedOutAt = none ∧
      (Engine.checkOutUpd 19 r).checkedOutAt = some 19 ∧
      (Engine.checkOutUpd 19 r).status = .COMPLETED) := by
  constructor
  · exact (checkout_only_after_checkin.1
      ⟨5, 1, 7, "a", "b", "t", none, none, .APPROVED, none, none, none,
        some "2026-01-01", none, false, "c", "d", none⟩).mpr (by decide)
  · obtain ⟨r, hg, hs, hin, hout, ho1, ho2⟩ := checkout_only_after_checkin.2.2
      ⟨[⟨1, .DISPONIBLE, true, 0, 1000⟩],
        [⟨5, 1, 7, 10, 20, .APPROVED, none, none, none, some 11, none⟩], 6⟩
      5 19 _ _ rfl
    exact ⟨r, hg, hs, hin, hout, ho1, ho2⟩

/-- C7: every successful reservation-mutating engine operation (create,
cancel, approve, reject, check-in, check-out) returns exactly the updated
stored reservation record — carrying its status and lifecycle timestamps
(approval metadata, `checked_in_at`, `checked_out_at`) — and the
list/calendar queries return arrays ordered by `start_time` ascending. -/
theorem endpoints_return_updated_record_and_sorted_lists :
    (∀ st q st' r, Engine.create st q = .ok (st', r) →
      Engine.getReservation st' r.id = some r) ∧
    (∀ st id now st' r', Engine.cancel st id now = .ok (st', r') →
      Engine.getReservation st' id = some r' ∧ r'.status = .CANCELLED) ∧
    (∀ st id aid now st' r', Engine.approve st id aid now = .ok (st', r') →
      Engine.getReservation st' id = some r' ∧ r'.status = .APPROVED ∧
        r'.approvedById = some aid ∧ r'.approvedAt = some now) ∧
    (∀ st id reason st' r', Engine.reject st id reason = .ok (st', r') →
      Engine.getReservation st' id = some r' ∧ r'.status = .REJECTED ∧
        r'.rejectionReason = some reason) ∧
    (∀ st id now grace st' r', Engine.checkIn st id now grace = .ok (st', r') →
      Engine.getReservation st' id = some r' ∧ r'.checkedInAt = some now) ∧
    (∀ st id now st' r', Engine.checkOut st id now = .ok (st', r') →
      Engine.getReservation st' id = some r' ∧ r'.checkedOutAt = some now ∧
        r'.status = .COMPLETED) ∧
    (∀ (st : Engine.State) (uid : Nat),
      Engine.sortedByStart (Engine.myReservations st uid)) ∧
    (∀ (st : Engine.State) (rid : Nat) (a b : Engine.Time),
      Engine.sortedByStart (Engine.resourceCalendar st rid a b)) := by
  refine ⟨?_, ?_, ?_, ?_, ?_, ?_, ?_, ?_⟩
  · intro st q st' r h
    exact Engine.getReservation_create h
  · intro st id now st' r' h
    obtain ⟨r, hg, hl, ht, hst', hr'⟩ := Engine.cancel_ok_spec h
    subst hst'
    rw [hr']
    exact ⟨Engine.getReservation_update (f := Engine.cancelUpd) (fun x => rfl) hg, rfl⟩
  · intro st id aid now st' r' h
    obtain ⟨r, hg, hp, hcf, hst', hr'⟩ := Engine.approve_ok_spec h
    subst hst'
    rw [hr']
    exact ⟨Engine.getReservation_update (f := Engine.approveUpd aid now) (fun x => rfl) hg, rfl, rfl, rfl⟩
  · intro st id reason st' r' h
    obtain ⟨r, hg, he, hp, hst', hr'⟩ := Engine.reject_ok_spec h
    subst hst'
    rw [hr']
    exact ⟨Engine.getReservation_update (f := Engine.rejectUpd reason) (fun x => rfl) hg, rfl, rfl⟩
  · intro st id now grace st' r' h
    obtain ⟨r, hg, hs, hn, hw1, hw2, hst', hr'⟩ := Engine.checkIn_ok_spec h
    subst hst'
    rw [hr']
    exact ⟨Engine.getReservation_update (f := Engine.checkInUpd now) (fun x => rfl) hg, rfl⟩
  · intro st id now st' r' h
    obtain ⟨r, hg, hs, hin, hout, hst', hr'⟩ := Engine.checkOut_ok_spec h
    subst hst'
    rw [hr']
    exact ⟨Engine.getReservation_update (f := Engine.checkOutUpd now) (fun x => rfl) hg, rfl, rfl⟩
  · intro st uid
    exact Engine.sortedByStart_myReservations st uid
  · intro st rid a b
    exact Engine.sortedByStart_resourceCalendar st rid a b

/-- Witness for C7: cancelling a concrete reservation returns the updated
CANCELLED record, and a concrete two-element listing comes back ordered by
`start_time`. -/
theorem endpoints_return_updated_record_and_sorted_lists_witness :
    (Engine.getReservation
        (Engine.updateReservation
          ⟨[⟨1, .DISPONIBLE, true, 0, 1000⟩],
            [⟨5, 1, 7, 10, 20, .PENDING, none, none, none, none, none⟩], 6⟩
          5 Engine.cancelUpd) 5
      = some (Engine.cancelUpd ⟨5, 1, 7, 10, 20, .PENDING, none, none, none, none, none⟩) ∧
      (Engine.cancelUpd ⟨5, 1, 7, 10, 20, .PENDING, none, none, none, none, none⟩).status
        = .CANCELLED) ∧
    Engine.sortedByStart (Engine.myReservations
      ⟨[⟨1, .DISPONIBLE, true, 0, 1000⟩],
        [⟨5, 1, 7, 30, 40, .PENDING, none, none, none, none, none⟩,
          ⟨6, 1, 7, 10, 20, .APPROVED, none, none, none, none, none⟩], 7⟩ 7) :=
  ⟨endpoints_return_updated_record_and_sorted_lists.2.1
      ⟨[⟨1, .DISPONIBLE, true, 0, 1000⟩],
        [⟨5, 1, 7, 10, 20, .PENDING, none, none, none, none, none⟩], 6⟩
      5 3 _ _ rfl,
    endpoints_return_updated_record_and_sorted_lists.2.2.2.2.2.2.1
      ⟨[⟨1, .DISPONIBLE, true, 0, 1000⟩],
        [⟨5, 1, 7, 30, 40, .PENDING, none, none, none, none, none⟩,
          ⟨6, 1, 7, 10, 20, .APPROVED, none, none, none, none, none⟩], 7⟩ 7⟩
